import Mathlib

/-!
Shallow embedding of the ppytrading backtesting core (indicators, rule
components, indicator cache, position model and the backtest orchestrator),
translated from the Python sources under `ppyt/`.  Machine floats are
modelled as `Option ℚ` where `none` plays the role of IEEE NaN; Python
exceptions are modelled with `Except PyErr`.
-/

namespace Ppyt

/-- Python exceptions relevant to the core: `NoDataError`, `OrderTypeError`
and `CommandError` (ppyt/exceptions.py). -/
inductive PyErr where
  | noDataError
  | orderTypeError
  | commandError
  deriving DecidableEq, Repr, Inhabited

/-- A float value: `none` models IEEE NaN (numpy `nan`). -/
abbrev NFloat := Option ℚ

-- Constants from ppyt/const.py.
def ORDER_TYPE_LONG : Nat := 1
def ORDER_TYPE_SHORT : Nat := 2
def ORDER_TYPES : List Nat := [ORDER_TYPE_LONG, ORDER_TYPE_SHORT]
def ORDER_TIMING_OPEN : Nat := 1
def ORDER_TIMING_SESSION : Nat := 2
def ORDER_TIMING_CLOSE : Nat := 3
def ORDER_TIMING_ANYTIME : Nat := 4
def ORDER_TIMINGS : List Nat :=
  [ORDER_TIMING_OPEN, ORDER_TIMING_SESSION, ORDER_TIMING_CLOSE]
def MAX_SPAN : Nat := 365
def MAX_INDICATOR_CACHES : Nat := 1000
def DEFAULT_AMOUNT_PER_TRADE : ℚ := 5000
def INDI_DIRECTION_UP : ℚ := 1
def INDI_DIRECTION_DOWN : ℚ := -1
def INDI_DIRECTION_HR : ℚ := 0

/-- numpy comparison `a < b`: any comparison against NaN is `False`. -/
def nanLt (a b : NFloat) : Bool :=
  match a, b with
  | some x, some y => decide (x < y)
  | _, _ => false

/-- numpy comparison `a <= b`: any comparison against NaN is `False`. -/
def nanLe (a b : NFloat) : Bool :=
  match a, b with
  | some x, some y => decide (x ≤ y)
  | _, _ => false

/-- numpy comparison `a > b`. -/
def nanGt (a b : NFloat) : Bool := nanLt b a

/-- numpy comparison `a >= b`. -/
def nanGe (a b : NFloat) : Bool := nanLe b a

/-- `np.isnan`. -/
def isnan (a : NFloat) : Bool := a.isNone

/-- A numpy array of dimension 1, 2 or 3; dimension 3 stands for the
"more than two dimensions" case rejected by `IndicatorBase.shifted`. -/
inductive NDArr where
  | a1 (xs : List NFloat)
  | a2 (xs : List (List NFloat))
  | a3 (xs : List (List (List NFloat)))
  deriving DecidableEq, Repr

/-- `len(arr.shape)`. -/
def NDArr.ndim : NDArr → Nat
  | .a1 _ => 1
  | .a2 _ => 2
  | .a3 _ => 3

/-- A row of `w` NaN entries. -/
def nanRow (w : Nat) : List NFloat := List.replicate w none

/-- Axis-0 shift of a 1-D array as performed by `IndicatorBase.shifted`:
`np.lib.pad(data, pad_width, constant_values=nan)[0:len(data)]` with
`pad_width = (abs(num), 0)` for negative `num` and `(0, num)` for positive. -/
def padShift1 (xs : List NFloat) (num : Int) : List NFloat :=
  if num < 0 then (List.replicate num.natAbs none ++ xs).take xs.length
  else (xs ++ List.replicate num.toNat none).take xs.length

/-- Axis-0 shift of a 2-D array: whole rows of NaN are padded in, then the
result is sliced back to the original number of rows. -/
def padShift2 (xs : List (List NFloat)) (num : Int) : List (List NFloat) :=
  if num < 0 then
    (List.replicate num.natAbs (nanRow (xs.headD []).length) ++ xs).take xs.length
  else (xs ++ List.replicate num.toNat (nanRow (xs.headD []).length)).take xs.length

/-- `IndicatorBase.shifted(num)` (ppyt/indicators/init): raises
`CommandError` when `num == 0` or the data has more than two dimensions,
otherwise pads with NaN along axis 0 and slices back to the original
length. -/
def shifted (d : NDArr) (num : Int) : Except PyErr NDArr :=
  if num = 0 ∨ 2 < d.ndim then .error .commandError
  else
    match d with
    | .a1 xs => .ok (.a1 (padShift1 xs num))
    | .a2 xs => .ok (.a2 (padShift2 xs num))
    | .a3 _ => .error .commandError

/-- `IndicatorBase.spanned_data` (ppyt/indicators/init): the trailing
`span`-bar window rows over the chosen price series.  Raises `CommandError`
when `span` is unset or exceeds `MAX_SPAN`; when fewer than `span` bars
exist the whole result is NaN; otherwise `span - 1` NaN rows are followed
by the sliding windows `data[i : i + span]`. -/
def spanned_data (prices : List NFloat) (span? : Option Nat) :
    Except PyErr (List (List NFloat)) :=
  match span? with
  | none => .error .commandError
  | some span =>
    if MAX_SPAN < span then .error .commandError
    else if prices.length < span then
      .ok (List.replicate prices.length (nanRow span))
    else
      .ok (List.replicate (span - 1) (nanRow span) ++
        (List.range (prices.length - span + 1)).map
          (fun i => (prices.drop i).take span))

/-- `np.average(row)`: NaN when the row is empty or contains a NaN,
otherwise the arithmetic mean. -/
def rowMean (row : List NFloat) : NFloat :=
  if row.length = 0 then none
  else if row.any (fun x => x.isNone) then none
  else some ((row.map (fun x => x.getD 0)).sum / (row.length : ℚ))

/-- `MovingAverageIndicator._build_indicator`
(ppyt/indicators/basic_indicators.py): row-wise mean of the spanned data. -/
def movingAverage (prices : List NFloat) (span? : Option Nat) :
    Except PyErr (List NFloat) :=
  (spanned_data prices span?).map (fun rows => rows.map rowMean)

/-- `IndicatorBase.get(idx)`: raises `NoDataError` when the index is out of
range or the stored value is NaN. -/
def indicator_get (data : List NFloat) (idx : Int) : Except PyErr ℚ :=
  if idx < 0 ∨ (data.length : Int) ≤ idx then .error .noDataError
  else
    match data.getD idx.toNat none with
    | none => .error .noDataError
    | some v => .ok v

/-- `CrossOverIndicator._build_indicator`
(ppyt/indicators/boolean_indicators.py), expressed over the two computed
moving-average series: with `reverse = False` it ANDs
`ma_short.shifted(-2) < ma_long.shifted(-2)` with
`ma_short.shifted(-1) >= ma_long.shifted(-1)`; with `reverse = True` the
comparisons are flipped. -/
def crossOver_build (maShort maLong : List NFloat) (reverse : Bool) :
    List Bool :=
  if !reverse then
    List.zipWith and
      (List.zipWith nanLt (padShift1 maShort (-2)) (padShift1 maLong (-2)))
      (List.zipWith nanGe (padShift1 maShort (-1)) (padShift1 maLong (-1)))
  else
    List.zipWith and
      (List.zipWith nanGt (padShift1 maShort (-2)) (padShift1 maLong (-2)))
      (List.zipWith nanLe (padShift1 maShort (-1)) (padShift1 maLong (-1)))

/-- `get_direction(val1, val2)` inside
`MADirectionIndicator._build_indicator`
(ppyt/indicators/direction_indicators.py).  The source tests
`np.isnan(val1) or np.isnan(val1)` — the first operand twice, never
`val2` — which is embedded here verbatim; a NaN `val2` therefore falls
through both (NaN-false) comparisons to the horizontal branch. -/
def get_direction (val1 val2 : NFloat) : NFloat :=
  if isnan val1 || isnan val1 then none
  else if nanLt val1 val2 then some INDI_DIRECTION_UP
  else if nanGt val1 val2 then some INDI_DIRECTION_DOWN
  else some INDI_DIRECTION_HR

/-- `MADirectionIndicator._build_indicator`: zip of `get_direction` over
the one-step-back-shifted moving average and the moving average itself. -/
def maDirection_build (prices : List NFloat) (span? : Option Nat) :
    Except PyErr (List NFloat) := do
  let ma ← movingAverage prices span?
  return List.zipWith get_direction (padShift1 ma (-1)) ma

/-- One day's price bar (ppyt/models/orm.py `HistoryBase`); dates are
abstracted to naturals, prices are exact rationals. -/
structure Bar where
  date : Nat
  open_price : ℚ
  high_price : ℚ
  low_price : ℚ
  close_price : ℚ
  volume : Nat
  deriving DecidableEq, Repr, Inhabited

/-- A security bound to its ordered price history
(ppyt/models/orm.py `Stock`). -/
structure StockM where
  histories : List Bar
  deriving DecidableEq, Repr, Inhabited

/-- `Stock.get_history(idx)`: raises `NoDataError` outside the valid
index range. -/
def get_history (s : StockM) (idx : Int) : Except PyErr Bar :=
  if idx < 0 ∨ (s.histories.length : Int) ≤ idx then .error .noDataError
  else .ok (s.histories.getD idx.toNat default)

/-- `Stock.get_high_price(idx)`. -/
def get_high_price (s : StockM) (idx : Int) : Except PyErr ℚ :=
  (get_history s idx).map (fun h => h.high_price)

/-- `Stock.get_low_price(idx)`. -/
def get_low_price (s : StockM) (idx : Int) : Except PyErr ℚ :=
  (get_history s idx).map (fun h => h.low_price)

/-- `handle_nodataerror(nodata_return)` (ppyt/decorators.py): converts a
raised `NoDataError` into the sentinel value; every other outcome passes
through untouched. -/
def handle_nodataerror {α : Type} (nodata_return : α)
    (res : Except PyErr α) : Except PyErr α :=
  match res with
  | .error .noDataError => .ok nodata_return
  | r => r

/-- A concrete condition (ppyt/rules/conditions/init `ConditionBase`):
the four direction-specific predicates a subclass provides; each may
raise (`NoDataError` in particular). -/
structure ConditionM where
  can_entry_long : Int → Except PyErr Bool
  can_entry_short : Int → Except PyErr Bool
  can_exit_long : Int → Except PyErr Bool
  can_exit_short : Int → Except PyErr Bool

/-- `ConditionBase.can_entry`: the direction dispatch wrapped by
`@handle_nodataerror(False)`. -/
def can_entry (c : ConditionM) (order_type : Nat) (idx : Int) :
    Except PyErr Bool :=
  handle_nodataerror false
    (if order_type = ORDER_TYPE_LONG then c.can_entry_long idx
     else if order_type = ORDER_TYPE_SHORT then c.can_entry_short idx
     else .error .orderTypeError)

/-- `ConditionBase.can_exit`: the same dispatch with no decorator, so a
raised `NoDataError` propagates. -/
def can_exit (c : ConditionM) (order_type : Nat) (idx : Int) :
    Except PyErr Bool :=
  if order_type = ORDER_TYPE_LONG then c.can_exit_long idx
  else if order_type = ORDER_TYPE_SHORT then c.can_exit_short idx
  else .error .orderTypeError

/-- `is_timing_matched` shared by entry and exit rules: `ANYTIME` matches
every slot, otherwise the slots must agree. -/
def is_timing_matched (ruleTiming timing : Nat) : Bool :=
  if ruleTiming = ORDER_TIMING_ANYTIME then true
  else ruleTiming = timing

/-- A concrete entry rule (ppyt/rules/entry_rules/init `EntryBase`):
its configured timing affinity and the two direction-specific price
functions (`None` = no entry price). -/
structure EntryRuleM where
  timing : Nat
  get_entry_price_long : Int → Nat → Except PyErr (Option ℚ)
  get_entry_price_short : Int → Nat → Except PyErr (Option ℚ)

/-- `EntryBase.get_entry_price`: direction dispatch, then (when a price
was produced and range-checking is on) the price is discarded unless it
lies within the day's `[low, high]`; the whole body is wrapped by
`@handle_nodataerror(None)`. -/
def get_entry_price (r : EntryRuleM) (s : StockM) (order_type : Nat)
    (idx : Int) (timing : Nat) (check_pricerange : Bool) :
    Except PyErr (Option ℚ) :=
  handle_nodataerror none (do
    let entry_price ←
      if order_type = ORDER_TYPE_LONG then r.get_entry_price_long idx timing
      else if order_type = ORDER_TYPE_SHORT then r.get_entry_price_short idx timing
      else .error .orderTypeError
    match entry_price with
    | none => return none
    | some p =>
      if check_pricerange then do
        let lo ← get_low_price s idx
        let hi ← get_high_price s idx
        if p < lo ∨ hi < p then return none
        else return some p
      else return some p)

/-- One open-to-close trade (ppyt/models/init `Position`); the entry and
exit rule groups are recorded by their index in the configured group
lists. -/
structure PositionM where
  order_type : Nat
  entry_date : Nat
  entry_price : ℚ
  entry_timing : Nat
  entry_group : Nat
  volume : Int
  exit_date : Option Nat
  exit_price : Option ℚ
  exit_timing : Option Nat
  exit_group : Option Nat
  high_price : Option ℚ
  low_price : Option ℚ
  period : Nat
  deriving DecidableEq, Repr

/-- `Position.is_order_long`. -/
def PositionM.is_order_long (p : PositionM) : Bool :=
  p.order_type = ORDER_TYPE_LONG

/-- `Position.is_order_short`. -/
def PositionM.is_order_short (p : PositionM) : Bool :=
  p.order_type = ORDER_TYPE_SHORT

/-- A fresh position as built by `Position.__init__`: exit fields and the
running high/low are unset, the holding period is 0. -/
def PositionM.mk_open (order_type : Nat) (entry_date : Nat)
    (entry_price : ℚ) (entry_timing : Nat) (entry_group : Nat)
    (volume : Int) : PositionM :=
  { order_type := order_type
    entry_date := entry_date
    entry_price := entry_price
    entry_timing := entry_timing
    entry_group := entry_group
    volume := volume
    exit_date := none
    exit_price := none
    exit_timing := none
    exit_group := none
    high_price := none
    low_price := none
    period := 0 }

/-- `Position.update(idx)`: revise the running high/low from that day's
bar and increment the holding period. -/
def PositionM.update (p : PositionM) (s : StockM) (idx : Int) :
    Except PyErr PositionM := do
  let high_price ← get_high_price s idx
  let low_price ← get_low_price s idx
  return { p with
    high_price := some (match p.high_price with
      | none => high_price
      | some h => max h high_price)
    low_price := some (match p.low_price with
      | none => low_price
      | some l => min l low_price)
    period := p.period + 1 }

/-- `Position.exit(...)`: set the exit fields. -/
def PositionM.exit_close (p : PositionM) (exit_date : Nat)
    (exit_price : ℚ) (exit_timing : Nat) (exit_group : Nat) : PositionM :=
  { p with
    exit_date := some exit_date
    exit_price := some exit_price
    exit_timing := some exit_timing
    exit_group := some exit_group }

/-- A concrete exit rule (ppyt/rules/exit_rules/init `ExitBase`). -/
structure ExitRuleM where
  timing : Nat
  get_exit_price_long : PositionM → Int → Nat → Except PyErr (Option ℚ)
  get_exit_price_short : PositionM → Int → Nat → Except PyErr (Option ℚ)

/-- `ExitBase.get_exit_price`: dispatch on the position's recorded
direction; an out-of-range computed price is not discarded but clamped to
the day's high (long position) or low (short position); wrapped by
`@handle_nodataerror(None)`. -/
def get_exit_price (r : ExitRuleM) (s : StockM) (position : PositionM)
    (idx : Int) (timing : Nat) (check_pricerange : Bool) :
    Except PyErr (Option ℚ) :=
  handle_nodataerror none (do
    let exit_price ←
      if position.is_order_long then
        r.get_exit_price_long position idx timing
      else if position.is_order_short then
        r.get_exit_price_short position idx timing
      else .error .orderTypeError
    match exit_price with
    | none => return none
    | some p =>
      if check_pricerange then do
        let lo ← get_low_price s idx
        let hi ← get_high_price s idx
        if p < lo ∨ hi < p then
          return some (if position.is_order_long then hi else lo)
        else return some p
      else return some p)

/-- The `IndicatorCache` singleton's mutable state
(ppyt/indicators/init): `cache` models the Python dict as an
insertion-ordered association list from identity key to (opaque) data,
`keys` is the FIFO list of inserted keys. -/
structure IndicatorCacheSt where
  cache : List (String × Nat)
  keys : List String
  deriving DecidableEq, Repr

/-- The cache state at process start. -/
def empty_cache : IndicatorCacheSt := { cache := [], keys := [] }

/-- Dict membership `key in self.__cache`. -/
def cache_contains (st : IndicatorCacheSt) (key : String) : Bool :=
  st.cache.any (fun p => p.1 == key)

/-- Dict assignment `self.__cache[key] = data`: overwrite in place when
the key exists, append otherwise. -/
def cache_store (cache : List (String × Nat)) (key : String) (data : Nat) :
    List (String × Nat) :=
  if cache.any (fun p => p.1 == key) then
    cache.map (fun p => if p.1 == key then (key, data) else p)
  else cache ++ [(key, data)]

/-- `IndicatorCache.add_data` (ppyt/indicators/init): a `none` key (a
non-cacheable identity) bypasses the cache; when the key is new and the
cache is at capacity, the oldest key is popped from the FIFO list and its
entry deleted before the new entry is stored and its key appended. -/
def add_data (st : IndicatorCacheSt) (key? : Option String) (data : Nat) :
    IndicatorCacheSt :=
  if MAX_INDICATOR_CACHES = 0 then st
  else
    match key? with
    | none => st
    | some key =>
      let st1 :=
        if cache_contains st key = false ∧
            MAX_INDICATOR_CACHES ≤ st.keys.length then
          match st.keys with
          | [] => st
          | del_key :: rest =>
            { cache := st.cache.eraseP (fun p => p.1 == del_key)
              keys := rest }
        else st
      { cache := cache_store st1.cache key data
        keys := st1.keys ++ [key] }

/-- Insert a sequence of cacheable identities (in order) into an empty
cache. -/
def insert_all (ks : List String) : IndicatorCacheSt :=
  ks.foldl (fun st k => add_data st (some k) 0) empty_cache

/-- A configured entry group (parsed rule file, ppyt/trading_manager.py):
direction, conditions that must all pass, and the entry rule. -/
structure EntryGroupM where
  order_type : Nat
  conditions : List ConditionM
  rule : EntryRuleM

/-- A configured exit group. -/
structure ExitGroupM where
  order_type : Nat
  conditions : List ConditionM
  rule : ExitRuleM

/-- `all([cond.can_entry(...) for cond in eg.conditions])`: every
condition is evaluated (the list is built first), in order, and any
raised exception propagates. -/
def conds_all_entry (conds : List ConditionM) (order_type : Nat)
    (idx : Int) : Except PyErr Bool :=
  match conds with
  | [] => .ok true
  | c :: rest => do
    let b ← can_entry c order_type idx
    let r ← conds_all_entry rest order_type idx
    return (b && r)

/-- `all([cond.can_exit(...) for cond in eg.conditions])`. -/
def conds_all_exit (conds : List ConditionM) (order_type : Nat)
    (idx : Int) : Except PyErr Bool :=
  match conds with
  | [] => .ok true
  | c :: rest => do
    let b ← can_exit c order_type idx
    let r ← conds_all_exit rest order_type idx
    return (b && r)

/-- The dict returned by `BacktestManager.__get_entry_point`; the group is
identified by its index in the entry-group list. -/
structure EntryPointM where
  entry_group : Nat
  timing : Nat
  price : ℚ
  deriving DecidableEq, Repr

/-- The dict returned by `BacktestManager.__get_exit_point`. -/
structure ExitPointM where
  exit_group : Nat
  timing : Nat
  price : ℚ
  deriving DecidableEq, Repr

/-- `BacktestManager.__get_exit_timings`: on the entry day (holding
period 0) only the timings strictly after the entry timing are offered;
from the next day on every timing in `ORDER_TIMINGS` is offered. -/
def get_exit_timings (position : PositionM) : List Nat :=
  if position.period = 0 then
    ORDER_TIMINGS.filter (fun ot => position.entry_timing < ot)
  else ORDER_TIMINGS

/-- Inner timing loop of `BacktestManager.__get_entry_point`: first
timing whose affinity matches and whose rule produces a price wins. -/
def entry_try_timings (s : StockM) (eg : EntryGroupM) (egIdx : Nat)
    (idx : Int) (timings : List Nat) : Except PyErr (Option EntryPointM) :=
  match timings with
  | [] => .ok none
  | t :: rest =>
    if is_timing_matched eg.rule.timing t = false then
      entry_try_timings s eg egIdx idx rest
    else do
      match ← get_entry_price eg.rule s eg.order_type idx t true with
      | some price =>
        return some { entry_group := egIdx, timing := t, price := price }
      | none => entry_try_timings s eg egIdx idx rest

/-- Outer group loop of `BacktestManager.__get_entry_point` (together
with the `__iter_entry_groups` generator): groups are scanned in
configuration order; a group whose direction is not requested or whose
conditions do not all pass is skipped; the first (group, timing) pair
producing a price wins. -/
def entry_point_go (s : StockM) (egs : List (Nat × EntryGroupM))
    (order_types : List Nat) (idx : Int) : Except PyErr (Option EntryPointM) :=
  match egs with
  | [] => .ok none
  | (i, eg) :: rest =>
    if eg.order_type ∉ order_types then entry_point_go s rest order_types idx
    else do
      let ok ← conds_all_entry eg.conditions eg.order_type idx
      if ok then
        match ← entry_try_timings s eg i idx ORDER_TIMINGS with
        | some ep => return some ep
        | none => entry_point_go s rest order_types idx
      else entry_point_go s rest order_types idx

/-- `BacktestManager.__get_entry_point`. -/
def get_entry_point (s : StockM) (egs : List EntryGroupM)
    (order_types : List Nat) (idx : Int) : Except PyErr (Option EntryPointM) :=
  entry_point_go s (egs.enum) order_types idx

/-- Inner timing loop of `BacktestManager.__get_exit_point`. -/
def exit_try_timings (s : StockM) (eg : ExitGroupM) (egIdx : Nat)
    (position : PositionM) (idx : Int) (timings : List Nat) :
    Except PyErr (Option ExitPointM) :=
  match timings with
  | [] => .ok none
  | t :: rest =>
    if is_timing_matched eg.rule.timing t = false then
      exit_try_timings s eg egIdx position idx rest
    else do
      match ← get_exit_price eg.rule s position idx t true with
      | some price =>
        return some { exit_group := egIdx, timing := t, price := price }
      | none => exit_try_timings s eg egIdx position idx rest

/-- Outer group loop of `BacktestManager.__get_exit_point` (with
`__iter_exit_groups`): only groups matching the position's direction are
considered, all their conditions must pass (`can_exit`, unsuppressed),
and the timings offered come from `get_exit_timings`. -/
def exit_point_go (s : StockM) (xgs : List (Nat × ExitGroupM))
    (position : PositionM) (idx : Int) : Except PyErr (Option ExitPointM) :=
  match xgs with
  | [] => .ok none
  | (i, eg) :: rest =>
    if position.order_type ≠ eg.order_type then
      exit_point_go s rest position idx
    else do
      let ok ← conds_all_exit eg.conditions position.order_type idx
      if ok then
        match ← exit_try_timings s eg i position idx (get_exit_timings position) with
        | some xp => return some xp
        | none => exit_point_go s rest position idx
      else exit_point_go s rest position idx

/-- `BacktestManager.__get_exit_point`. -/
def get_exit_point (s : StockM) (xgs : List ExitGroupM)
    (position : PositionM) (idx : Int) : Except PyErr (Option ExitPointM) :=
  exit_point_go s (xgs.enum) position idx

/-- Python `int(q)`: truncation toward zero. -/
def int_trunc (q : ℚ) : Int := q.num / (q.den : Int)

/-- The accumulating result of a run (ppyt/models/init `Result`). -/
structure ResultM where
  positions : List PositionM
  deriving DecidableEq, Repr

/-- One iteration of the day loop in `BacktestManager.start`: update the
held position from yesterday's bar, skip zero-volume days, otherwise try
to open a position and then to close whichever position is now held. -/
def day_step (s : StockM) (egs : List EntryGroupM) (xgs : List ExitGroupM)
    (order_types : List Nat) (amount_per_trade : ℚ)
    (st : Option PositionM × ResultM) (ih : Nat × Bar) :
    Except PyErr (Option PositionM × ResultM) := do
  let (position0, result) := st
  let (idx, hist) := ih
  let position1 ← match position0 with
    | none => pure none
    | some p => do
      let p1 ← p.update s ((idx : Int) - 1)
      pure (some p1)
  if hist.volume = 0 then return (position1, result)
  let position2 ←
    match position1 with
    | some p => pure (some p)
    | none => do
      match ← get_entry_point s egs order_types idx with
      | none => pure none
      | some ep =>
        let volume := int_trunc (amount_per_trade / ep.price)
        if volume = 0 then pure none
        else if (hist.volume : Int) < volume then pure none
        else
          let eg := egs.getD ep.entry_group
            { order_type := 0, conditions := [],
              rule := { timing := 0,
                        get_entry_price_long := fun _ _ => .ok none,
                        get_entry_price_short := fun _ _ => .ok none } }
          pure (some (PositionM.mk_open eg.order_type hist.date ep.price
            ep.timing ep.entry_group volume))
  match position2 with
  | none => return (none, result)
  | some position => do
    match ← get_exit_point s xgs position idx with
    | none => return (some position, result)
    | some xp =>
      let closed := position.exit_close hist.date xp.price xp.timing xp.exit_group
      return (none, { positions := result.positions ++ [closed] })

/-- `BacktestManager.start`: replay the security's bars in index order,
threading the open position and the accumulated result. -/
def start (s : StockM) (egs : List EntryGroupM) (xgs : List ExitGroupM)
    (order_types : List Nat) (amount_per_trade : ℚ) :
    Except PyErr (Option PositionM × ResultM) :=
  s.histories.enum.foldlM
    (day_step s egs xgs order_types amount_per_trade)
    (none, { positions := [] })

-- Concrete fixtures used to instantiate the universally quantified
-- theorems below.

/-- A condition whose four predicates all raise `NoDataError`. -/
def cond_nodata : ConditionM :=
  { can_entry_long := fun _ => .error .noDataError
    can_entry_short := fun _ => .error .noDataError
    can_exit_long := fun _ => .error .noDataError
    can_exit_short := fun _ => .error .noDataError }

/-- A one-day stock whose bar has high 100 and low 90. -/
def stock_90_100 : StockM :=
  { histories := [{ date := 0, open_price := 95, high_price := 100,
                    low_price := 90, close_price := 95, volume := 100 }] }

/-- An entry rule computing the out-of-range price 105 in both
directions. -/
def entry_rule_105 : EntryRuleM :=
  { timing := ORDER_TIMING_ANYTIME
    get_entry_price_long := fun _ _ => .ok (some 105)
    get_entry_price_short := fun _ _ => .ok (some 105) }

/-- An exit rule computing the out-of-range price 105 in both
directions. -/
def exit_rule_105 : ExitRuleM :=
  { timing := ORDER_TIMING_ANYTIME
    get_exit_price_long := fun _ _ _ => .ok (some 105)
    get_exit_price_short := fun _ _ _ => .ok (some 105) }

/-- A freshly opened long position (entry at 95 on the fixture day). -/
def pos_long_95 : PositionM :=
  PositionM.mk_open ORDER_TYPE_LONG 0 95 ORDER_TIMING_OPEN 0 10

/-- A freshly opened short position. -/
def pos_short_95 : PositionM :=
  PositionM.mk_open ORDER_TYPE_SHORT 0 95 ORDER_TIMING_OPEN 0 10

/-- A position entered at the CLOSE timing on its entry day. -/
def pos_entered_close : PositionM :=
  PositionM.mk_open ORDER_TYPE_LONG 0 95 ORDER_TIMING_CLOSE 0 10

/-- One tradable bar for the same-day entry-and-exit run: prices between
9 and 12, plenty of volume. -/
def stock_c10 : StockM :=
  { histories := [{ date := 7, open_price := 10, high_price := 12,
                    low_price := 9, close_price := 11, volume := 1000 }] }

/-- Entry group for the same-day run: long, no conditions, a rule pinned
to the OPEN timing that always prices at 10. -/
def entry_group_c10 : EntryGroupM :=
  { order_type := ORDER_TYPE_LONG
    conditions := []
    rule := { timing := ORDER_TIMING_OPEN
              get_entry_price_long := fun _ _ => .ok (some 10)
              get_entry_price_short := fun _ _ => .ok none } }

/-- Exit group for the same-day run: long, no conditions, a rule pinned
to the CLOSE timing that always prices at 11. -/
def exit_group_c10 : ExitGroupM :=
  { order_type := ORDER_TYPE_LONG
    conditions := []
    rule := { timing := ORDER_TIMING_CLOSE
              get_exit_price_long := fun _ _ _ => .ok (some 11)
              get_exit_price_short := fun _ _ _ => .ok none } }

/-- The completed trade the same-day run is expected to record: entered
at OPEN for 10, exited at CLOSE for 11 on the same bar, holding period
still 0 and the running high/low never seeded. -/
def pos_c10_expected : PositionM :=
  { order_type := ORDER_TYPE_LONG
    entry_date := 7
    entry_price := 10
    entry_timing := ORDER_TIMING_OPEN
    entry_group := 0
    volume := 500
    exit_date := some 7
    exit_price := some 11
    exit_timing := some ORDER_TIMING_CLOSE
    exit_group := some 0
    high_price := none
    low_price := none
    period := 0 }

instance {ε α : Type} [DecidableEq ε] [DecidableEq α] :
    DecidableEq (Except ε α) := fun x y =>
  match x, y with
  | .error a, .error b => decidable_of_iff (a = b) (by simp)
  | .error _, .ok _ => isFalse (by simp)
  | .ok _, .error _ => isFalse (by simp)
  | .ok a, .ok b => decidable_of_iff (a = b) (by simp)

-- Helper lemmas.

/-- On one-dimensional data `shifted` with a nonzero offset succeeds and
is the axis-0 NaN pad-and-slice. -/
theorem shifted_a1_eq (xs : List NFloat) (num : Int) (h : num ≠ 0) :
    shifted (.a1 xs) num = .ok (.a1 (padShift1 xs num)) := by
  simp [shifted, NDArr.ndim, h]

/-- On two-dimensional data `shifted` with a nonzero offset succeeds and
is the axis-0 NaN-row pad-and-slice. -/
theorem shifted_a2_eq (rows : List (List NFloat)) (num : Int) (h : num ≠ 0) :
    shifted (.a2 rows) num = .ok (.a2 (padShift2 rows num)) := by
  simp [shifted, NDArr.ndim, h]

/-- Claim C1, as stated, is false: for short-MA `[5,6,9,8]` and long-MA
`[7,7,7,7]` the upward-cross output at index 2 is `false` (the claim says
it is the unique `true`) and the output at index 3 is `true` (the claim
says `false`). -/
theorem c1_counterexample :
    (crossOver_build [some 5, some 6, some 9, some 8]
        [some 7, some 7, some 7, some 7] false).getD 2 false = false ∧
    (crossOver_build [some 5, some 6, some 9, some 8]
        [some 7, some 7, some 7, some 7] false).getD 3 false = true := by
  constructor <;> rfl

/-- Claim C1 (amended): for the short-MA series `[5,6,9,8]` and long-MA
series `[7,7,7,7]`, the upward-cross indicator is true exactly at
index 3 and false at every other index: the code compares the values two
bars back and one bar back (`shifted(-2)` strictly below, `shifted(-1)`
at-or-above), so the signal fires on the bar after the cross
(`6 < 7` at index 1, then `9 ≥ 7` at index 2, reported at index 3). -/
theorem c1_crossover_fires_at_index_3 :
    crossOver_build [some 5, some 6, some 9, some 8]
        [some 7, some 7, some 7, some 7] false =
      [false, false, false, true] := by
  rfl

/-- Claim C7 (code bug witness): the moving-average direction indicator
over price series `[1, NaN]` with span 1 produces the flat marker `0` at
index 1, although the current value (the second input of the comparison)
is NaN there: `get_direction` tests `np.isnan(val1)` twice and never
`val2`, so a missing current value is not propagated as NaN. -/
theorem c7_direction_nan_not_propagated :
    maDirection_build [some 1, none] (some 1) =
      .ok [none, some INDI_DIRECTION_HR] := by
  rfl

/-- Claim C8: the windowed view with span 3 over the price series
`[10,20,30,40,50]` is exactly the five rows
`[NaN,NaN,NaN], [NaN,NaN,NaN], [10,20,30], [20,30,40], [30,40,50]`:
the first `span - 1` rows (those with fewer than `span` bars available)
are entirely NaN, and row `i ≥ span - 1` holds the trailing `span`
values ending at and including bar `i`. -/
theorem c8_windowed_padding :
    spanned_data [some 10, some 20, some 30, some 40, some 50] (some 3) =
      .ok [[none, none, none], [none, none, none],
           [some 10, some 20, some 30], [some 20, some 30, some 40],
           [some 30, some 40, some 50]] := by
  rfl

/-- Claim C6, as stated, is false: on the one-dimensional series
`[10, 20]`, offset 0 raises `CommandError` instead of returning the
series unchanged, and offset +1 returns the series unchanged instead of
moving the values forward with NaN padding. -/
theorem c6_counterexample :
    shifted (.a1 [some 10, some 20]) 0 = .error .commandError ∧
    shifted (.a1 [some 10, some 20]) 1 = .ok (.a1 [some 10, some 20]) :=
  ⟨rfl, rfl⟩

/-- Claim C6 (amended): on data of at most two dimensions (both the 1-D
and the 2-D case), `shifted` with a negative offset returns an array
with the same number of entries (rows) whose first `|offset|` entries
(rows) are NaN-filled and whose entry (row) `i ≥ |offset|` holds the
original entry (row) at `i - |offset|`; with a positive offset it
returns the data unchanged (the padding is appended past the slice);
offset 0 raises `CommandError`, as does any offset on data of more than
two dimensions. -/
theorem c6_shifted_amended (xs : List NFloat) (num : Int) :
    (num < 0 → ∃ ys, shifted (.a1 xs) num = .ok (.a1 ys) ∧
       ys.length = xs.length ∧
       ∀ i : Nat, i < xs.length →
         ys.getD i none = if i < num.natAbs then none
                          else xs.getD (i - num.natAbs) none) ∧
    (0 < num → shifted (.a1 xs) num = .ok (.a1 xs)) ∧
    shifted (.a1 xs) 0 = .error .commandError ∧
    (∀ rows : List (List NFloat),
       (num < 0 → ∃ ys, shifted (.a2 rows) num = .ok (.a2 ys) ∧
          ys.length = rows.length ∧
          ∀ i : Nat, i < rows.length →
            ys.getD i [] =
              if i < num.natAbs then nanRow (rows.headD []).length
              else rows.getD (i - num.natAbs) []) ∧
       (0 < num → shifted (.a2 rows) num = .ok (.a2 rows)) ∧
       shifted (.a2 rows) 0 = .error .commandError) ∧
    (∀ zs : List (List (List NFloat)),
       shifted (.a3 zs) num = .error .commandError) := by
  refine ⟨fun hneg => ?_, fun hpos => ?_, ?_,
    fun rows => ⟨fun hneg => ?_, fun hpos => ?_, ?_⟩, fun zs => ?_⟩
  · refine ⟨padShift1 xs num, shifted_a1_eq xs num (by omega), ?_, ?_⟩
    · simp [padShift1, hneg]
    · intro i hi
      simp only [padShift1, if_pos hneg, List.getD_eq_getElem?_getD,
        List.getElem?_take, hi, if_pos]
      by_cases hik : i < num.natAbs
      · rw [List.getElem?_append_left (by simpa using hik)]
        simp [List.getElem?_replicate, hik]
      · rw [List.getElem?_append_right (by simpa using Nat.le_of_not_lt hik)]
        simp [hik]
  · rw [shifted_a1_eq xs num (by omega)]
    have hnn : ¬ num < 0 := by omega
    simp only [padShift1, if_neg hnn]
    rw [List.take_left]
  · rfl
  · refine ⟨padShift2 rows num, shifted_a2_eq rows num (by omega), ?_, ?_⟩
    · simp [padShift2, hneg]
    · intro i hi
      simp only [padShift2, if_pos hneg, List.getD_eq_getElem?_getD,
        List.getElem?_take, hi, if_pos]
      by_cases hik : i < num.natAbs
      · rw [List.getElem?_append_left (by simpa using hik)]
        simp [List.getElem?_replicate, hik]
      · rw [List.getElem?_append_right (by simpa using Nat.le_of_not_lt hik)]
        simp [hik]
  · rw [shifted_a2_eq rows num (by omega)]
    have hnn : ¬ num < 0 := by omega
    simp only [padShift2, if_neg hnn]
    rw [List.take_left]
  · rfl
  · simp [shifted, NDArr.ndim]

/-- Claim C6 amended witness at concrete inputs: offset +1 leaves the
1-D series `[1, 2]` and the 2-D array `[[1], [2]]` unchanged, offset 0
raises `CommandError` in both dimensions, and a negative offset on the
2-D array moves the rows back with a NaN row in front. -/
theorem c6_shifted_amended_witness :
    shifted (.a1 [some 1, some 2]) (1 : Int) = .ok (.a1 [some 1, some 2]) ∧
    shifted (.a1 [some 1, some 2]) (0 : Int) = .error .commandError ∧
    (∃ ys, shifted (.a2 [[some 1], [some 2]]) (-1 : Int) = .ok (.a2 ys) ∧
      ys.length = ([[some 1], [some 2]] : List (List NFloat)).length ∧
      ∀ i : Nat, i < ([[some 1], [some 2]] : List (List NFloat)).length →
        ys.getD i [] =
          if i < (-1 : Int).natAbs then
            nanRow (([[some 1], [some 2]] : List (List NFloat)).headD []).length
          else ([[some 1], [some 2]] : List (List NFloat)).getD
            (i - (-1 : Int).natAbs) []) ∧
    shifted (.a2 [[some 1], [some 2]]) (1 : Int) =
      .ok (.a2 [[some 1], [some 2]]) ∧
    shifted (.a2 [[some 1], [some 2]]) (0 : Int) = .error .commandError :=
  ⟨(c6_shifted_amended [some 1, some 2] 1).2.1 (by decide),
   (c6_shifted_amended [some 1, some 2] 0).2.2.1,
   ((c6_shifted_amended [some 1, some 2] (-1)).2.2.2.1
     [[some 1], [some 2]]).1 (by decide),
   ((c6_shifted_amended [some 1, some 2] 1).2.2.2.1
     [[some 1], [some 2]]).2.1 (by decide),
   ((c6_shifted_amended [some 1, some 2] 0).2.2.2.1
     [[some 1], [some 2]]).2.2⟩

/-- Claim C2: `NoDataError` suppression is asymmetric: for every
condition, direction and index, an entry predicate raising `NoDataError`
makes `can_entry` return `False`, while an exit predicate raising
`NoDataError` makes `can_exit` propagate the very same `NoDataError`. -/
theorem c2_nodata_asymmetry (c : ConditionM) (idx : Int) :
    (c.can_entry_long idx = .error .noDataError →
       can_entry c ORDER_TYPE_LONG idx = .ok false) ∧
    (c.can_entry_short idx = .error .noDataError →
       can_entry c ORDER_TYPE_SHORT idx = .ok false) ∧
    (c.can_exit_long idx = .error .noDataError →
       can_exit c ORDER_TYPE_LONG idx = .error .noDataError) ∧
    (c.can_exit_short idx = .error .noDataError →
       can_exit c ORDER_TYPE_SHORT idx = .error .noDataError) := by
  refine ⟨fun h => ?_, fun h => ?_, fun h => ?_, fun h => ?_⟩ <;>
    simp [can_entry, can_exit, handle_nodataerror,
      ORDER_TYPE_LONG, ORDER_TYPE_SHORT, h]

/-- Claim C2 witness: a condition whose predicates all raise
`NoDataError` is silently disqualified on entry but crashes on exit, in
both directions. -/
theorem c2_nodata_asymmetry_witness :
    can_entry cond_nodata ORDER_TYPE_LONG 0 = .ok false ∧
    can_entry cond_nodata ORDER_TYPE_SHORT 0 = .ok false ∧
    can_exit cond_nodata ORDER_TYPE_LONG 0 = .error .noDataError ∧
    can_exit cond_nodata ORDER_TYPE_SHORT 0 = .error .noDataError :=
  ⟨(c2_nodata_asymmetry cond_nodata 0).1 rfl,
   (c2_nodata_asymmetry cond_nodata 0).2.1 rfl,
   (c2_nodata_asymmetry cond_nodata 0).2.2.1 rfl,
   (c2_nodata_asymmetry cond_nodata 0).2.2.2 rfl⟩

/-- Claim C4: on the entry day (holding period 0) the offered exit
timings are exactly the timings strictly greater than the entry timing —
in particular a position entered at CLOSE is offered none at all — while
from holding period 1 on all of OPEN, SESSION and CLOSE are offered. -/
theorem c4_same_slot_exit_exclusion (p : PositionM) (t : Nat) :
    (p.period = 0 →
      (t ∈ get_exit_timings p ↔ t ∈ ORDER_TIMINGS ∧ p.entry_timing < t)) ∧
    (1 ≤ p.period → get_exit_timings p = ORDER_TIMINGS) ∧
    (p.period = 0 → p.entry_timing = ORDER_TIMING_CLOSE →
      get_exit_timings p = []) := by
  refine ⟨fun h0 => ?_, fun h1 => ?_, fun h0 hc => ?_⟩
  · simp [get_exit_timings, h0, List.mem_filter]
  · have hne : p.period ≠ 0 := by omega
    simp [get_exit_timings, hne]
  · simp [get_exit_timings, h0, hc, ORDER_TIMINGS, ORDER_TIMING_OPEN,
      ORDER_TIMING_SESSION, ORDER_TIMING_CLOSE]

/-- Claim C4 witness: the position entered at CLOSE with holding
period 0 is offered no exit timings that day (in particular SESSION is
excluded), and a position with holding period 1 is offered all of
OPEN, SESSION, CLOSE. -/
theorem c4_same_slot_exit_exclusion_witness :
    (2 ∈ get_exit_timings pos_entered_close ↔
      2 ∈ ORDER_TIMINGS ∧ pos_entered_close.entry_timing < 2) ∧
    get_exit_timings pos_entered_close = [] ∧
    get_exit_timings { pos_entered_close with period := 1 } = ORDER_TIMINGS :=
  ⟨(c4_same_slot_exit_exclusion pos_entered_close 2).1 rfl,
   (c4_same_slot_exit_exclusion pos_entered_close 2).2.2 rfl rfl,
   (c4_same_slot_exit_exclusion { pos_entered_close with period := 1 } 2).2.1
     (by decide)⟩

/-- Claim C3: out-of-range prices are handled asymmetrically. On a day
with high 100 and low 90, an entry rule pricing at 105 yields no entry
(in either direction), while an exit rule pricing at 105 forces an exit
clamped to the day's high (100) for a long position and to the day's low
(90) for a short position. -/
theorem c3_pricerange_entry_vs_exit (r : EntryRuleM) (x : ExitRuleM)
    (s : StockM) (idx : Int) (t : Nat) (posL posS : PositionM)
    (hhi : get_high_price s idx = .ok 100)
    (hlo : get_low_price s idx = .ok 90)
    (hrL : r.get_entry_price_long idx t = .ok (some 105))
    (hrS : r.get_entry_price_short idx t = .ok (some 105))
    (hxL : x.get_exit_price_long posL idx t = .ok (some 105))
    (hxS : x.get_exit_price_short posS idx t = .ok (some 105))
    (hpL : posL.order_type = ORDER_TYPE_LONG)
    (hpS : posS.order_type = ORDER_TYPE_SHORT) :
    get_entry_price r s ORDER_TYPE_LONG idx t true = .ok none ∧
    get_entry_price r s ORDER_TYPE_SHORT idx t true = .ok none ∧
    get_exit_price x s posL idx t true = .ok (some 100) ∧
    get_exit_price x s posS idx t true = .ok (some 90) := by
  refine ⟨?_, ?_, ?_, ?_⟩ <;>
    simp only [get_entry_price, get_exit_price, handle_nodataerror,
      PositionM.is_order_long, PositionM.is_order_short, hpL, hpS,
      ORDER_TYPE_LONG, ORDER_TYPE_SHORT, hrL, hrS, hxL, hxS, hhi, hlo,
      bind, Except.bind, if_true, if_pos, ite_true] <;>
    norm_num [pure, Except.pure]

/-- Claim C3 witness: the concrete fixtures (one bar with high 100 and
low 90; entry and exit rules pricing at 105; a long and a short
position) exhibit the asymmetry. -/
theorem c3_pricerange_witness :
    get_entry_price entry_rule_105 stock_90_100 ORDER_TYPE_LONG 0
        ORDER_TIMING_OPEN true = .ok none ∧
    get_entry_price entry_rule_105 stock_90_100 ORDER_TYPE_SHORT 0
        ORDER_TIMING_OPEN true = .ok none ∧
    get_exit_price exit_rule_105 stock_90_100 pos_long_95 0
        ORDER_TIMING_OPEN true = .ok (some 100) ∧
    get_exit_price exit_rule_105 stock_90_100 pos_short_95 0
        ORDER_TIMING_OPEN true = .ok (some 90) :=
  c3_pricerange_entry_vs_exit entry_rule_105 exit_rule_105 stock_90_100 0
    ORDER_TIMING_OPEN pos_long_95 pos_short_95
    rfl rfl rfl rfl rfl rfl rfl rfl

/-- A NaN window row averages to NaN. -/
theorem rowMean_nanRow (w : Nat) (hw : 0 < w) : rowMean (nanRow w) = none := by
  cases w with
  | zero => omega
  | succ n => simp [rowMean, nanRow, List.replicate_succ]

/-- Claim C9: for a moving average with window `span ≤ MAX_SPAN` over a
price series with no missing values, reading the scalar value at any
in-bounds index `idx < span - 1` raises `NoDataError`: the all-NaN
window row averages to NaN, and `get` surfaces NaN as `NoDataError`. -/
theorem c9_ma_insufficient_history (prices : List NFloat) (span idx : Nat)
    (data : List NFloat)
    (_hnomiss : ∀ v ∈ prices, v ≠ none)
    (hspan : span ≤ MAX_SPAN)
    (hidx : idx < span - 1)
    (hlen : idx < prices.length)
    (hma : movingAverage prices (some span) = .ok data) :
    indicator_get data (idx : Int) = .error .noDataError := by
  have hspan2 : 2 ≤ span := by omega
  have hnospan : ¬ (MAX_SPAN < span) := by omega
  by_cases hls : prices.length < span
  · simp only [movingAverage, spanned_data, if_neg hnospan, if_pos hls,
      Except.map, List.map_replicate, Except.ok.injEq] at hma
    rw [rowMean_nanRow span (by omega)] at hma
    subst hma
    have hnc : ¬ (((idx : Nat) : Int) < 0 ∨
        (((List.replicate prices.length (none : NFloat)).length : Int) ≤
          ((idx : Nat) : Int))) := by
      simp only [List.length_replicate]
      omega
    rw [indicator_get, if_neg hnc]
    rw [List.getD_eq_getElem?_getD, Int.toNat_natCast,
      List.getElem?_replicate, if_pos hlen]
    rfl
  · simp only [movingAverage, spanned_data, if_neg hnospan, if_neg hls,
      Except.map, Except.ok.injEq, List.map_append, List.map_replicate] at hma
    rw [rowMean_nanRow span (by omega)] at hma
    subst hma
    have hlen2 : idx < prices.length - span + 1 + (span - 1) := by omega
    have hnc : ¬ (((idx : Nat) : Int) < 0 ∨
        (((List.replicate (span - 1) (none : NFloat) ++
            ((List.range (prices.length - span + 1)).map
              (fun i => (prices.drop i).take span)).map rowMean).length : Int) ≤
          ((idx : Nat) : Int))) := by
      simp only [List.length_append, List.length_replicate, List.length_map,
        List.length_range]
      omega
    rw [indicator_get, if_neg hnc]
    rw [List.getD_eq_getElem?_getD, Int.toNat_natCast,
      List.getElem?_append_left (by simpa using hidx),
      List.getElem?_replicate, if_pos hidx]
    rfl

/-- `map Prod.fst` commutes with deleting the entry keyed `k`. -/
theorem map_fst_eraseP (l : List (String × Nat)) (k : String) :
    (l.eraseP (fun p => p.1 == k)).map Prod.fst =
      (l.map Prod.fst).eraseP (fun s => s == k) := by
  induction l with
  | nil => rfl
  | cons h t ih =>
    by_cases hk : (h.1 == k) = true
    · simp [List.eraseP_cons, hk]
    · simp [List.eraseP_cons, hk, ih]

/-- A key absent from the stored key list is not found by the dict
membership scan. -/
theorem any_fst_eq_false (l : List (String × Nat)) (k : String)
    (h : k ∉ l.map Prod.fst) : l.any (fun p => p.1 == k) = false := by
  rw [List.any_eq_false]
  intro p hp hpk
  simp only [beq_iff_eq] at hpk
  exact h (hpk ▸ List.mem_map_of_mem Prod.fst hp)

/-- Storing a fresh key appends its entry. -/
theorem cache_store_append (l : List (String × Nat)) (k : String) (d : Nat)
    (h : l.any (fun p => p.1 == k) = false) :
    cache_store l k d = l ++ [(k, d)] := by
  simp [cache_store, h]

/-- One `add_data` call on a state reached by inserting the distinct keys
`ks` preserves the FIFO shape: the retained keys are the last
`MAX_INDICATOR_CACHES` insertions and the dict's keys agree with the
FIFO list. -/
theorem add_data_step (st : IndicatorCacheSt) (ks : List String) (k : String)
    (hkeys : st.keys = ks.drop (ks.length - MAX_INDICATOR_CACHES))
    (hcache : st.cache.map Prod.fst = st.keys)
    (hk : k ∉ ks) :
    (add_data st (some k) 0).keys =
      (ks ++ [k]).drop ((ks ++ [k]).length - MAX_INDICATOR_CACHES) ∧
    (add_data st (some k) 0).cache.map Prod.fst =
      (add_data st (some k) 0).keys := by
  obtain ⟨cache, keys⟩ := st
  simp only at hkeys hcache
  have hM0 : MAX_INDICATOR_CACHES ≠ 0 := by decide
  have hM1 : 1 ≤ MAX_INDICATOR_CACHES := Nat.one_le_iff_ne_zero.mpr hM0
  have hkmem : k ∉ keys := by
    rw [hkeys]; intro hmem; exact hk (List.drop_subset _ _ hmem)
  have hcont : cache_contains ⟨cache, keys⟩ k = false :=
    any_fst_eq_false cache k (by rw [hcache]; exact hkmem)
  by_cases hcap : MAX_INDICATOR_CACHES ≤ keys.length
  · have hlenkeys : keys.length =
        ks.length - (ks.length - MAX_INDICATOR_CACHES) := by
      rw [hkeys, List.length_drop]
    have hMn : MAX_INDICATOR_CACHES ≤ ks.length := by omega
    obtain ⟨d, rest, hdr⟩ : ∃ d rest, keys = d :: rest := by
      cases keys with
      | nil => exfalso; simp at hlenkeys; omega
      | cons d rest => exact ⟨d, rest, rfl⟩
    subst hdr
    have hrest : rest = ks.drop (ks.length - MAX_INDICATOR_CACHES + 1) := by
      rw [← List.tail_drop, ← hkeys]
      rfl
    have hkrest : k ∉ rest := fun hmem => hkmem (List.mem_cons_of_mem d hmem)
    simp only [add_data, if_neg hM0]
    rw [if_pos ⟨hcont, hcap⟩]
    have herase : (cache.eraseP (fun p => p.1 == d)).map Prod.fst = rest := by
      rw [map_fst_eraseP, hcache]
      simp [List.eraseP_cons]
    constructor
    · simp only [List.length_append, List.length_singleton]
      have harith : ks.length + 1 - MAX_INDICATOR_CACHES =
          ks.length - MAX_INDICATOR_CACHES + 1 := by omega
      rw [harith,
        List.drop_append_of_le_length (by omega), ← hrest]
    · rw [cache_store_append _ _ _ (any_fst_eq_false _ _ (herase ▸ hkrest))]
      simp [herase]
  · have hnM : ks.length - MAX_INDICATOR_CACHES = 0 := by
      rw [hkeys, List.length_drop] at hcap; omega
    have hkeqs : keys = ks := by rw [hkeys, hnM, List.drop_zero]
    have hnM1 : ks.length + 1 - MAX_INDICATOR_CACHES = 0 := by
      rw [hkeys, List.length_drop] at hcap; omega
    simp only [add_data, if_neg hM0]
    rw [if_neg (by intro hand; exact hcap hand.2)]
    constructor
    · simp only [List.length_append, List.length_singleton, hnM1,
        List.drop_zero, hkeqs]
    · rw [cache_store_append _ _ _ hcont]
      simp [hcache]

/-- Inserting a duplicate-free key sequence into the empty cache keeps
exactly the last `MAX_INDICATOR_CACHES` insertions, in insertion order,
with the dict contents matching the FIFO key list. -/
theorem insert_all_fifo (ks : List String) :
    ks.Nodup →
    (insert_all ks).keys = ks.drop (ks.length - MAX_INDICATOR_CACHES) ∧
    (insert_all ks).cache.map Prod.fst = (insert_all ks).keys := by
  induction ks using List.reverseRecOn with
  | nil => exact fun _ => ⟨rfl, rfl⟩
  | append_singleton ks k ih =>
    intro h
    rw [List.nodup_append] at h
    obtain ⟨h1, _, hdisj⟩ := h
    have hk : k ∉ ks := fun hmem => hdisj hmem (by simp)
    obtain ⟨ih1, ih2⟩ := ih h1
    have hfold : insert_all (ks ++ [k]) = add_data (insert_all ks) (some k) 0 := by
      rw [insert_all, List.foldl_append]; rfl
    rw [hfold]
    exact add_data_step (insert_all ks) ks k ih1 ih2 hk

/-- Claim C5: starting from the empty cache, any sequence of insertions
of distinct cacheable identities leaves the dict holding exactly the last
`MAX_INDICATOR_CACHES` identities inserted (so it never exceeds the
bound), and an insertion performed at capacity evicts exactly the
earliest-inserted identity still present: the post-state is the previous
contents minus their head, plus the new identity. -/
theorem c5_cache_fifo (ks : List String) (hnd : ks.Nodup) :
    (insert_all ks).cache.map Prod.fst =
        ks.drop (ks.length - MAX_INDICATOR_CACHES) ∧
    (insert_all ks).cache.length ≤ MAX_INDICATOR_CACHES ∧
    (∀ k, k ∉ ks → MAX_INDICATOR_CACHES ≤ ks.length →
      (insert_all (ks ++ [k])).cache.map Prod.fst =
        ((insert_all ks).cache.map Prod.fst).tail ++ [k]) := by
  obtain ⟨hkeys, hcache⟩ := insert_all_fifo ks hnd
  have hfst : (insert_all ks).cache.map Prod.fst =
      ks.drop (ks.length - MAX_INDICATOR_CACHES) := hcache.trans hkeys
  refine ⟨hfst, ?_, ?_⟩
  · have hlen : (insert_all ks).cache.length =
        (ks.drop (ks.length - MAX_INDICATOR_CACHES)).length := by
      rw [← hfst, List.length_map]
    rw [hlen, List.length_drop]
    omega
  · intro k hk hcap
    have hM1 : 1 ≤ MAX_INDICATOR_CACHES := by decide
    have hnd' : (ks ++ [k]).Nodup := by
      rw [List.nodup_append]
      exact ⟨hnd, List.nodup_singleton k,
        fun a ha hb => hk ((List.mem_singleton.mp hb) ▸ ha)⟩
    obtain ⟨hkeys', hcache'⟩ := insert_all_fifo (ks ++ [k]) hnd'
    rw [hcache'.trans hkeys', hfst, List.tail_drop, List.length_append,
      List.length_singleton]
    have harith : ks.length + 1 - MAX_INDICATOR_CACHES =
        ks.length - MAX_INDICATOR_CACHES + 1 := by omega
    rw [harith, List.drop_append_of_le_length (by omega)]

/-- Claim C5 witness: inserting the two distinct identities `a`, `b`
into the empty cache satisfies the FIFO characterization. -/
theorem c5_cache_fifo_witness :
    (insert_all ["a", "b"]).cache.map Prod.fst =
        ["a", "b"].drop ((["a", "b"] : List String).length -
          MAX_INDICATOR_CACHES) ∧
    (insert_all ["a", "b"]).cache.length ≤ MAX_INDICATOR_CACHES ∧
    (∀ k, k ∉ (["a", "b"] : List String) →
      MAX_INDICATOR_CACHES ≤ (["a", "b"] : List String).length →
      (insert_all (["a", "b"] ++ [k])).cache.map Prod.fst =
        ((insert_all ["a", "b"]).cache.map Prod.fst).tail ++ [k]) :=
  c5_cache_fifo ["a", "b"] (by decide)

/-- Claim C9 witness: the 2-day moving average over `[1, 3]` read at
index 0 raises `NoDataError`. -/
theorem c9_ma_insufficient_history_witness :
    indicator_get [none, some 2] (0 : Int) = .error .noDataError :=
  c9_ma_insufficient_history [some 1, some 3] 2 0 [none, some 2]
    (by decide) (by decide) (by decide) (by decide)
    (by norm_num [movingAverage, spanned_data, rowMean, nanRow, MAX_SPAN,
      List.range_succ, Except.map, List.replicate])

/-- Claim C10: same-day entry-then-exit is reachable. With one tradable
bar, an entry group producing a price at OPEN and an exit group of the
same direction producing a price at CLOSE (strictly after the entry
timing), the day loop opens the position and closes it in the same
iteration: the recorded trade has equal entry and exit dates, holding
period 0, an exit timing strictly after the entry timing, and running
high/low never set (the daily update step never ran for it). -/
theorem c10_same_day_entry_exit :
    start stock_c10 [entry_group_c10] [exit_group_c10] ORDER_TYPES
        DEFAULT_AMOUNT_PER_TRADE =
      .ok (none, { positions := [pos_c10_expected] }) ∧
    pos_c10_expected.exit_date = some pos_c10_expected.entry_date ∧
    pos_c10_expected.period = 0 ∧
    pos_c10_expected.high_price = none ∧
    pos_c10_expected.low_price = none ∧
    pos_c10_expected.entry_timing < (pos_c10_expected.exit_timing.getD 0) := by
  refine ⟨?_, rfl, rfl, rfl, rfl, by decide⟩
  have htr : int_trunc 500 = 500 := by decide
  norm_num [start, stock_c10, entry_group_c10, exit_group_c10,
    pos_c10_expected, ORDER_TYPES, ORDER_TYPE_LONG, ORDER_TYPE_SHORT,
    ORDER_TIMINGS, ORDER_TIMING_OPEN, ORDER_TIMING_SESSION,
    ORDER_TIMING_CLOSE, ORDER_TIMING_ANYTIME, day_step, get_entry_point,
    entry_point_go, entry_try_timings, get_entry_price, get_exit_point,
    exit_point_go, exit_try_timings, get_exit_price, conds_all_entry,
    conds_all_exit, handle_nodataerror, is_timing_matched,
    get_exit_timings, get_history, get_high_price, get_low_price,
    PositionM.mk_open, PositionM.update, PositionM.exit_close,
    PositionM.is_order_long, PositionM.is_order_short,
    List.enum, List.enumFrom, List.foldlM, bind, Except.bind, pure,
    Except.pure, Except.map, List.getD, List.getElem?_cons_zero,
    Option.getD_some, htr, DEFAULT_AMOUNT_PER_TRADE]

end Ppyt
